import Mathlib

/-!
Shallow embedding of the MosaicRetriever dense indexing-and-search pipeline
(src/MosaicRetriever/src/dense.py and src/MosaicRetriever/src/api.py).

The embedding models:
- `merge_text` / `pyStrip` : `DenseIndexer._merge_text` and Python `str.strip`
  (ASCII whitespace);
- `build_from_corpus` : the streaming build loop with its buffer, chunked
  `flush`, `limit` break and final flush, over an explicit indexer state and
  an explicit filesystem state;
- `save` / `load` : persistence of the three artifacts; `docids.txt` is one
  id per line, read back with per-line strip;
- `faissSearch` / `search` : the FAISS `IndexFlatIP` black box is modelled as
  exact inner-product top-k (descending, padded to length k with sentinel
  rows labelled -1, as FAISS does when ntotal < k), followed by the
  out-of-range row filtering and doc-id mapping of `DenseSearcher.search`;
- `uniSearchInit` : the facade decision of `UniSearchAPI.__init__`
  (load when `index.faiss` exists, otherwise build + save + load).

Embedding vectors are lists of rationals; the embedding model is an
arbitrary deterministic per-text function `enc : String → Vec` (the spec
treats `encode` as a deterministic black box producing one vector per text).
-/

/-- Embedding vectors (stand-in for float32 arrays). -/
abbrev Vec := List ℚ

/-- Inner product of two vectors (FAISS `IndexFlatIP` similarity). -/
def ip (u v : Vec) : ℚ := (List.zipWith (fun a b => a * b) u v).sum

/-- The whitespace set of Python `str.strip()` (CPython `Py_UNICODE_ISSPACE`):
tab through carriage return (U+0009..U+000D), the file/group/record/unit
separators (U+001C..U+001F), space, next line (U+0085), no-break space
(U+00A0), ogham space mark (U+1680), the typographic spaces
(U+2000..U+200A), line and paragraph separators (U+2028, U+2029), narrow
no-break space (U+202F), medium mathematical space (U+205F) and ideographic
space (U+3000). -/
def isPySpace (c : Char) : Bool :=
  (0x09 ≤ c.val && c.val ≤ 0x0d) || c.val = 0x20 ||
  (0x1c ≤ c.val && c.val ≤ 0x1f) || c.val = 0x85 || c.val = 0xa0 ||
  c.val = 0x1680 || (0x2000 ≤ c.val && c.val ≤ 0x200a) ||
  c.val = 0x2028 || c.val = 0x2029 || c.val = 0x202f || c.val = 0x205f ||
  c.val = 0x3000

/-- Strip leading and trailing whitespace from a character list. -/
def stripChars (cs : List Char) : List Char :=
  ((cs.dropWhile isPySpace).reverse.dropWhile isPySpace).reverse

/-- Python `s.strip()`. -/
def pyStrip (s : String) : String := String.mk (stripChars s.data)

/-- `DenseIndexer._merge_text`: strip both, join with a newline when both
non-empty, else `title or text`. -/
def merge_text (title text : String) : String :=
  let t := pyStrip title
  let x := pyStrip text
  if t ≠ "" ∧ x ≠ "" then t ++ "\n" ++ x
  else if t ≠ "" then t else x

/-- Python line splitting at the character level: split on newline
characters, every newline terminates a line. -/
def splitNl : List Char → List (List Char)
  | [] => [[]]
  | c :: cs =>
    if c = '\n' then [] :: splitNl cs
    else
      match splitNl cs with
      | [] => [[c]]
      | l :: ls => (c :: l) :: ls

/-- Python `for line in f` over a file's contents: the final empty chunk
after a trailing newline is not a line (an empty file has no lines). -/
def charLines (cs : List Char) : List (List Char) :=
  let parts := splitNl cs
  if parts.getLast? = some [] then parts.dropLast else parts

/-- The universal-newline translation Python applies when reading a file in
text mode with `newline=None` (as `DenseIndexer.load` does): each "\r\n"
pair and each lone "\r" is translated to "\n" before line splitting. -/
def univNl : List Char → List Char
  | [] => []
  | [c] => if c = '\r' then ['\n'] else [c]
  | c :: c2 :: rest =>
    if c = '\r' then
      (if c2 = '\n' then '\n' :: univNl rest else '\n' :: univNl (c2 :: rest))
    else c :: univNl (c2 :: rest)

/-- Lines of a string, as Python text-mode file iteration yields them:
universal-newline translation first, then splitting on "\n" (the line
terminator is retained by Python but is removed by the `strip` that
`DenseIndexer.load` applies to every line, so we drop it here). -/
def pyLines (s : String) : List String :=
  (charLines (univNl s.data)).map (fun cs => String.mk cs)

/-- Errors raised by the pipeline (ValueError for the empty corpus,
RuntimeError for save-before-build, FileNotFoundError for missing
artifacts). -/
inductive PyError where
  | emptyCorpus
  | notBuilt
  | missingIndexFile
  | missingDocidsFile
deriving DecidableEq, Repr

/-- The `meta.json` record. -/
structure MetaRecord where
  model : String
  size : Nat
  type : String
deriving DecidableEq, Repr

/-- The relevant slice of the filesystem: the index directory and the three
artifact files inside it.  `indexFile` holds the serialized FAISS index,
modelled as the exact vector list (the spec requires the native binary
format to round-trip byte-identically). -/
structure FS where
  dirExists : Bool
  indexFile : Option (List Vec)
  docidsFile : Option String
  metaFile : Option MetaRecord
deriving DecidableEq, Repr

/-- `DenseIndexer._ensure_dir`: `mkdir(parents=True, exist_ok=True)`. -/
def ensure_dir (fs : FS) : FS := { fs with dirExists := true }

/-- In-memory state of a `DenseIndexer`: the optional FAISS index (a list of
vectors in append order) and the doc-id list. -/
structure IndexerState where
  index : Option (List Vec)
  docids : List String
deriving DecidableEq, Repr

/-- State right after `DenseIndexer.__init__`. -/
def initState : IndexerState := { index := none, docids := [] }

/-- The mutable locals of `build_from_corpus`: the index under construction,
the doc-id list built so far, and the two parallel buffers. -/
structure BuildAcc where
  index : Option (List Vec)
  docids : List String
  bufTexts : List String
  bufIds : List String

/-- The nested `flush()` of `build_from_corpus`: encode the buffered texts,
append the vectors to the (lazily created) index and the buffered ids to the
doc-id list, clear both buffers; a no-op on an empty buffer. -/
def flush (enc : String → Vec) (a : BuildAcc) : BuildAcc :=
  if a.bufTexts = [] then a
  else
    { index := some (a.index.getD [] ++ a.bufTexts.map enc),
      docids := a.docids ++ a.bufIds,
      bufTexts := [],
      bufIds := [] }

/-- The break condition of the build loop: `limit is not None and (i + 1) >= limit`. -/
def limitHit : Option Int → Nat → Bool
  | none, _ => false
  | some l, i => l ≤ (i : Int) + 1

/-- The `for i, (docid, title, text) in enumerate(docs)` loop of
`build_from_corpus`: buffer the id and merged text, flush when the buffer
reaches `chunkSize`, break when the limit is hit. -/
def buildLoop (enc : String → Vec) (chunkSize : Nat) (limit : Option Int) :
    List (String × String × String) → Nat → BuildAcc → BuildAcc
  | [], _, a => a
  | (docid, title, text) :: rest, i, a =>
    let a1 : BuildAcc :=
      { a with bufIds := a.bufIds ++ [docid],
               bufTexts := a.bufTexts ++ [merge_text title text] }
    let a2 := if chunkSize ≤ a1.bufTexts.length then flush enc a1 else a1
    if limitHit limit i then a2 else buildLoop enc chunkSize limit rest (i + 1) a2

/-- `DenseIndexer.build_from_corpus`: ensure the directory, reset the doc-id
list, run the loop, final flush, raise `ValueError` when no index was ever
created, else install the index.  Returns the resulting indexer state, the
resulting filesystem and the raised error, if any. -/
def build_from_corpus (enc : String → Vec) (s : IndexerState) (fs : FS)
    (docs : List (String × String × String)) (limit : Option Int) (chunkSize : Nat) :
    IndexerState × FS × Option PyError :=
  let fs1 := ensure_dir fs
  let a := flush enc (buildLoop enc chunkSize limit docs 0
    { index := none, docids := [], bufTexts := [], bufIds := [] })
  match a.index with
  | none => ({ index := s.index, docids := [] }, fs1, some PyError.emptyCorpus)
  | some vecs => ({ index := some vecs, docids := a.docids }, fs1, none)

/-- Contents written to `docids.txt` by `save`: each id followed by a
newline, concatenated in order. -/
def docidsFileContent : List String → String
  | [] => ""
  | d :: rest => d ++ "\n" ++ docidsFileContent rest

/-- Default embedding model name (`DenseConfig.model_name`). -/
def defaultModelName : String := "multi-qa-mpnet-base-dot-v1"

/-- `DenseIndexer.save`: `RuntimeError` before touching the filesystem when
the index is not built; otherwise ensure the directory and write the three
artifacts. -/
def save (s : IndexerState) (fs : FS) : FS × Option PyError :=
  match s.index with
  | none => (fs, some PyError.notBuilt)
  | some vecs =>
    ({ dirExists := true,
       indexFile := some vecs,
       docidsFile := some (docidsFileContent s.docids),
       metaFile := some { model := defaultModelName, size := s.docids.length,
                          type := "IndexFlatIP" } }, none)

/-- `DenseIndexer.load`: read the index file (FileNotFoundError when
absent), then read `docids.txt` line by line, stripping each line.  No
cross-check between the two files. -/
def load (fs : FS) : Except PyError IndexerState :=
  match fs.indexFile with
  | none => Except.error PyError.missingIndexFile
  | some vecs =>
    match fs.docidsFile with
    | none => Except.error PyError.missingDocidsFile
    | some content =>
      Except.ok { index := some vecs, docids := (pyLines content).map pyStrip }

/-- Ordering used by the FAISS top-k result: higher score first. -/
def rowGE (a b : Int × ℚ) : Prop := b.2 ≤ a.2

instance rowGEDecidable : DecidableRel rowGE :=
  fun a b => inferInstanceAs (Decidable (b.2 ≤ a.2))

instance rowGETotal : IsTotal (Int × ℚ) rowGE := ⟨fun a b => le_total b.2 a.2⟩

instance rowGETrans : IsTrans (Int × ℚ) rowGE :=
  ⟨fun _ _ _ h1 h2 => le_trans h2 h1⟩

/-- Sentinel score FAISS places on padding rows when the index holds fewer
than k vectors; the exact value is irrelevant because such rows carry the
label -1 and are filtered out by `DenseSearcher.search`. -/
def faissSentinel : ℚ := -(10 ^ 38)

/-- All (row, score) pairs of the index against a query, rows numbered from `i`. -/
def scoredRows (q : Vec) : List Vec → Int → List (Int × ℚ)
  | [], _ => []
  | v :: vs, i => (i, ip q v) :: scoredRows q vs (i + 1)

/-- The FAISS `IndexFlatIP.search` black box: exact inner-product top-k,
scores descending, padded to exactly k rows with `(-1, sentinel)` when the
index holds fewer than k vectors. -/
def faissSearch (vecs : List Vec) (q : Vec) (k : Nat) : List (Int × ℚ) :=
  (List.insertionSort rowGE (scoredRows q vecs 0)).take k ++
    List.replicate (k - vecs.length) (-1, faissSentinel)

/-- The result-mapping loop of `DenseSearcher.search`: silently skip any row
whose position is negative or not less than the doc-id list length, else
look the doc-id up (in bounds by the guard). -/
def mapRows (docids : List String) : List (Int × ℚ) → List (String × ℚ)
  | [] => []
  | p :: rest =>
    if h : 0 ≤ p.1 ∧ p.1 < (docids.length : Int) then
      (docids.get ⟨p.1.toNat, by omega⟩, p.2) :: mapRows docids rest
    else mapRows docids rest

/-- `DenseSearcher.search` over a loaded index (vectors plus doc-id list):
encode the query, top-k search, map rows back to doc-ids. -/
def search (enc : String → Vec) (docids : List String) (vecs : List Vec)
    (query : String) (k : Nat) : List (String × ℚ) :=
  mapRows docids (faissSearch vecs (enc query) k)

/-- `UniSearchAPI.__init__` (dense part): ensure the directory, then load if
`index.faiss` exists, else build from the corpus (default chunk size 8192),
save, and load. -/
def uniSearchInit (enc : String → Vec) (corpus : List (String × String × String))
    (limit : Option Int) (fs : FS) : FS × Except PyError IndexerState :=
  let fs0 := ensure_dir fs
  if fs0.indexFile.isSome then (fs0, load fs0)
  else
    let r := build_from_corpus enc initState fs0 corpus limit 8192
    match r.2.2 with
    | some e => (r.2.1, Except.error e)
    | none =>
      let w := save r.1 r.2.1
      match w.2 with
      | some e => (w.1, Except.error e)
      | none => (w.1, load w.1)

/-- A concrete embedding function for witnesses and counterexamples. -/
def encConst : String → Vec := fun _ => [1]

/-- A concrete filesystem with nothing present. -/
def fs0 : FS := { dirExists := false, indexFile := none, docidsFile := none, metaFile := none }

/-! ## Build-loop characterization

The chunked build loop, followed by the final flush, is equivalent to a
single flush of the whole consumed prefix of the stream.  `consumed`
captures exactly which items the loop reads before breaking on `limit`. -/

/-- Extend the buffers of an accumulator with a list of (doc-id, merged-text)
pairs, in lockstep. -/
def extendAcc (a : BuildAcc) (items : List (String × String)) : BuildAcc :=
  { a with bufIds := a.bufIds ++ items.map Prod.fst,
           bufTexts := a.bufTexts ++ items.map Prod.snd }

/-- The items the build loop reads from position `i` on before stopping. -/
def consumed (limit : Option Int) : Nat → List α → List α
  | _, [] => []
  | i, d :: rest => d :: (if limitHit limit i then [] else consumed limit (i + 1) rest)

/-- The (doc-id, merged-text) pair contributed by one stream item. -/
def itemOf (d : String × String × String) : String × String :=
  (d.1, merge_text d.2.1 d.2.2)

theorem extendAcc_nil (a : BuildAcc) : extendAcc a [] = a := by
  simp [extendAcc]

theorem extendAcc_append (a : BuildAcc) (xs ys : List (String × String)) :
    extendAcc (extendAcc a xs) ys = extendAcc a (xs ++ ys) := by
  simp [extendAcc]

theorem flush_flush (enc : String → Vec) (a : BuildAcc) :
    flush enc (flush enc a) = flush enc a := by
  by_cases h : a.bufTexts = [] <;> simp [flush, h]

theorem flush_extendAcc_flush (enc : String → Vec) (a : BuildAcc)
    (items : List (String × String)) :
    flush enc (extendAcc (flush enc a) items) = flush enc (extendAcc a items) := by
  by_cases hb : a.bufTexts = []
  · simp [flush, hb]
  · by_cases hi : items = []
    · rw [hi, extendAcc_nil, extendAcc_nil, flush_flush]
    · have hmap : items.map Prod.snd ≠ [] := by
        simpa using hi
      simp [flush, extendAcc, hb, hi, hmap]

theorem buildLoop_flush (enc : String → Vec) (c : Nat) (limit : Option Int) :
    ∀ (docs : List (String × String × String)) (i : Nat) (a : BuildAcc),
      flush enc (buildLoop enc c limit docs i a) =
        flush enc (extendAcc a ((consumed limit i docs).map itemOf)) := by
  intro docs
  induction docs with
  | nil =>
    intro i a
    simp [buildLoop, consumed, extendAcc_nil]
  | cons d rest ih =>
    intro i a
    obtain ⟨docid, title, text⟩ := d
    simp only [buildLoop, consumed, List.map_cons]
    split_ifs with hl hc hc
    · rw [flush_flush]
      simp [extendAcc, itemOf]
    · simp [extendAcc, itemOf]
    · rw [ih, flush_extendAcc_flush]
      simp [extendAcc, itemOf]
    · rw [ih]
      simp [extendAcc, itemOf]

/-- The batching-free specification of `build_from_corpus` on the consumed
items: error on an empty list, else the index holds one encoded merged text
per item and the doc-id list the ids, in input order. -/
def buildSpec (enc : String → Vec) (s : IndexerState) (fs : FS)
    (items : List (String × String × String)) : IndexerState × FS × Option PyError :=
  if items = [] then ({ index := s.index, docids := [] }, ensure_dir fs, some PyError.emptyCorpus)
  else ({ index := some (items.map (fun d => enc (merge_text d.2.1 d.2.2))),
          docids := items.map Prod.fst }, ensure_dir fs, none)

theorem build_eq_buildSpec (enc : String → Vec) (s : IndexerState) (fs : FS)
    (docs : List (String × String × String)) (limit : Option Int) (c : Nat) :
    build_from_corpus enc s fs docs limit c = buildSpec enc s fs (consumed limit 0 docs) := by
  unfold build_from_corpus
  rw [buildLoop_flush]
  cases hi : consumed limit 0 docs with
  | nil => simp [buildSpec, extendAcc, flush]
  | cons x xs =>
    simp [buildSpec, extendAcc, flush, itemOf, Function.comp]

theorem consumed_none : ∀ (i : Nat) (docs : List α), consumed (none : Option Int) i docs = docs := by
  intro i docs
  induction docs generalizing i with
  | nil => rfl
  | cons d rest ih => simp [consumed, limitHit, ih]

theorem consumed_some (l : Int) :
    ∀ (docs : List α) (i : Nat), consumed (some l) i docs = docs.take (max (l - i).toNat 1) := by
  intro docs
  induction docs with
  | nil => intro i; simp [consumed]
  | cons d rest ih =>
    intro i
    by_cases h : l ≤ (i : Int) + 1
    · have h6 : limitHit (some l) i = true := by simp [limitHit, h]
      have h2 : max (l - (i : Int)).toNat 1 = 1 := Nat.max_eq_right (by omega)
      rw [consumed, if_pos h6, h2]
      rfl
    · have h6 : limitHit (some l) i = false := by simp [limitHit, h]
      have h2 : max (l - (i : Int)).toNat 1 = (l - (i : Int)).toNat :=
        Nat.max_eq_left (by omega)
      have h4 : max (l - ((i + 1 : Nat) : Int)).toNat 1 = (l - ((i + 1 : Nat) : Int)).toNat :=
        Nat.max_eq_left (by push_cast; omega)
      have h5 : (l - (i : Int)).toNat = (l - ((i + 1 : Nat) : Int)).toNat + 1 := by
        push_cast
        omega
      rw [consumed, if_neg (by rw [h6]; exact Bool.false_ne_true), ih (i + 1), h2, h4, h5,
        List.take_succ_cons]

theorem mem_consumed (limit : Option Int) :
    ∀ (i : Nat) (docs : List α) (x : α), x ∈ consumed limit i docs → x ∈ docs := by
  intro i docs
  induction docs generalizing i with
  | nil => intro x hx; simp [consumed] at hx
  | cons d rest ih =>
    intro x hx
    rw [consumed] at hx
    rcases List.mem_cons.mp hx with h | h
    · exact h ▸ List.mem_cons_self d rest
    · rcases Decidable.em (limitHit limit i = true) with hl | hl
      · simp [hl] at h
      · simp only [hl, if_false] at h
        exact List.mem_cons_of_mem d (ih (i + 1) x h)

theorem consumed_cons_ne_nil (limit : Option Int) (i : Nat) (d : α) (rest : List α) :
    consumed limit i (d :: rest) ≠ [] := by
  simp [consumed]

/-! ## Claim theorems: build behaviour -/

/-- C3: `build_from_corpus` on a fresh indexer with an input yielding zero
documents raises the empty-corpus error and constructs no index, and a
subsequent `save` on the same instance fails with the not-built error
without writing any file (the filesystem it was given is returned
untouched). -/
theorem c3_empty_corpus (enc : String → Vec) (fs fs2 : FS) (limit : Option Int) (c : Nat) :
    (build_from_corpus enc initState fs [] limit c).2.2 = some PyError.emptyCorpus ∧
    (build_from_corpus enc initState fs [] limit c).1.index = none ∧
    save (build_from_corpus enc initState fs [] limit c).1 fs2 = (fs2, some PyError.notBuilt) :=
  ⟨rfl, rfl, rfl⟩

/-- C7: building is chunking-transparent — with the same corpus and limit,
chunk size 1 and chunk size 8192 produce identical results (same doc-id
list, same vectors, same error behaviour, same filesystem effect). -/
theorem c7_chunking_transparent (enc : String → Vec) (s : IndexerState) (fs : FS)
    (docs : List (String × String × String)) (limit : Option Int) :
    build_from_corpus enc s fs docs limit 1 = build_from_corpus enc s fs docs limit 8192 := by
  rw [build_eq_buildSpec, build_eq_buildSpec]

/-- C8 (amended): `build_from_corpus` writes no file — the three artifact
slots are exactly as before — and its only filesystem effect is ensuring
the index directory exists. -/
theorem c8_no_file_writes (enc : String → Vec) (s : IndexerState) (fs : FS)
    (docs : List (String × String × String)) (limit : Option Int) (c : Nat) :
    (build_from_corpus enc s fs docs limit c).2.1.indexFile = fs.indexFile ∧
    (build_from_corpus enc s fs docs limit c).2.1.docidsFile = fs.docidsFile ∧
    (build_from_corpus enc s fs docs limit c).2.1.metaFile = fs.metaFile ∧
    (build_from_corpus enc s fs docs limit c).2.1 = ensure_dir fs := by
  have hfs : (build_from_corpus enc s fs docs limit c).2.1 = ensure_dir fs := by
    rw [build_eq_buildSpec]
    unfold buildSpec
    split_ifs <;> rfl
  exact ⟨by rw [hfs]; rfl, by rw [hfs]; rfl, by rw [hfs]; rfl, hfs⟩

/-- C8 counterexample: the claim says the filesystem is unchanged by a build
call, but when the index directory does not exist, `build_from_corpus`
creates it (`_ensure_dir` runs `mkdir` at the start of the build), so the
filesystem after the call differs from the one before. -/
theorem c8_counterexample :
    (build_from_corpus encConst initState fs0 [("d", "t", "x")] none 8192).2.1 ≠ fs0 := by
  decide

/-- C4 counterexample: with `limit = 0` the build loop still consumes one
source item — the break check `(i + 1) >= limit` runs only after the first
item has been buffered — so on a one-document stream the doc-id list has
length 1, not `min(0, 1) = 0` as the claim states. -/
theorem c4_counterexample :
    (build_from_corpus encConst initState fs0 [("d", "t", "x")] (some 0) 8192).1.docids.length = 1 ∧
    (1 : Nat) ≠ min (Int.toNat 0) 1 := by
  constructor
  · rfl
  · decide

/-- C4 (amended): for every limit `l ≥ 1`, `build_from_corpus` reads exactly
the first `l` source items — it behaves identically to a build of the
truncated stream — and the resulting doc-id list has length
`min l (stream length)`, the partial last buffer being flushed.  (With
`l ≤ 0` the loop still consumes one item before the break check fires.) -/
theorem c4_limit_truncation (enc : String → Vec) (s : IndexerState) (fs : FS)
    (docs : List (String × String × String)) (l : Int) (c : Nat) (h : 1 ≤ l) :
    (build_from_corpus enc s fs docs (some l) c).1.docids.length = min l.toNat docs.length ∧
    build_from_corpus enc s fs docs (some l) c =
      build_from_corpus enc s fs (docs.take l.toNat) none c := by
  have htake : consumed (some l) 0 docs = docs.take l.toNat := by
    rw [consumed_some]
    have : max (l - (0 : Nat)).toNat 1 = l.toNat := by
      rw [Nat.max_eq_left (by omega)]
      norm_num
    rw [this]
  constructor
  · rw [build_eq_buildSpec, htake]
    unfold buildSpec
    by_cases he : docs.take l.toNat = []
    · have hd : docs = [] := by
        rcases docs with _ | ⟨d, rest⟩
        · rfl
        · exfalso
          have h1 : l.toNat = (l.toNat - 1) + 1 := by omega
          rw [h1, List.take_succ_cons] at he
          exact List.cons_ne_nil _ _ he
      rw [if_pos he, hd]
      simp
    · rw [if_neg he]
      simp [List.length_take]
  · rw [build_eq_buildSpec, build_eq_buildSpec, htake, consumed_none]

/-- C4 witness: a stream of three documents built with limit 2 yields a
doc-id list of length `min 2 3 = 2`. -/
theorem c4_limit_truncation_witness :
    (build_from_corpus encConst initState fs0
      [("a", "t", "x"), ("b", "t", "y"), ("c", "t", "z")] (some 2) 8192).1.docids.length =
      min (Int.toNat 2) 3 :=
  (c4_limit_truncation encConst initState fs0
    [("a", "t", "x"), ("b", "t", "y"), ("c", "t", "z")] 2 8192 (by decide)).1

/-! ## Persistence round-trip lemmas -/

theorem splitNl_ne_nil : ∀ cs : List Char, splitNl cs ≠ [] := by
  intro cs
  induction cs with
  | nil => simp [splitNl]
  | cons c rest ih =>
    rw [splitNl]
    by_cases h : c = '\n'
    · simp [h]
    · rw [if_neg h]
      cases hs : splitNl rest with
      | nil => exact absurd hs ih
      | cons l ls => simp

theorem splitNl_append (d : List Char) (rest : List Char) (h : '\n' ∉ d) :
    splitNl (d ++ '\n' :: rest) = d :: splitNl rest := by
  induction d with
  | nil => simp [splitNl]
  | cons c cs ih =>
    have hc : ¬ (c = '\n') := fun he => h (he ▸ List.mem_cons_self c cs)
    have hcs : '\n' ∉ cs := fun hm => h (List.mem_cons_of_mem c hm)
    rw [List.cons_append, splitNl, if_neg hc, ih hcs]

theorem charLines_cons (d : List Char) (rest : List Char) (h : '\n' ∉ d) :
    charLines (d ++ '\n' :: rest) = d :: charLines rest := by
  rw [charLines, charLines, splitNl_append d rest h]
  cases hs : splitNl rest with
  | nil => exact absurd hs (splitNl_ne_nil rest)
  | cons l ls =>
    rw [List.getLast?_cons_cons]
    by_cases hl : (l :: ls).getLast? = some []
    · rw [if_pos hl, if_pos hl, List.dropLast_cons₂]
    · rw [if_neg hl, if_neg hl]

theorem univNl_no_cr : ∀ cs : List Char, '\r' ∉ cs → univNl cs = cs := by
  intro cs
  induction cs with
  | nil => intro _; rfl
  | cons c rest ih =>
    intro h
    have hc : ¬ (c = '\r') := fun he => h (he ▸ List.mem_cons_self c rest)
    have hrest : '\r' ∉ rest := fun hm => h (List.mem_cons_of_mem c hm)
    cases rest with
    | nil =>
      rw [univNl, if_neg hc]
    | cons c2 rest2 =>
      rw [univNl, if_neg hc, ih hrest]

theorem cr_not_mem_content (ids : List String)
    (h : ∀ d ∈ ids, '\r' ∉ d.data) :
    '\r' ∉ (docidsFileContent ids).data := by
  induction ids with
  | nil => simp [docidsFileContent]
  | cons d rest ih =>
    have hd : '\r' ∉ d.data := h d (List.mem_cons_self d rest)
    have hrest : ∀ x ∈ rest, '\r' ∉ x.data := fun x hx => h x (List.mem_cons_of_mem d hx)
    rw [docidsFileContent, String.data_append, String.data_append]
    intro hm
    rcases List.mem_append.mp hm with h1 | h2
    · rcases List.mem_append.mp h1 with h3 | h4
      · exact hd h3
      · simp at h4
    · exact ih hrest h2

theorem mapMk_charLines_content (ids : List String)
    (h : ∀ d ∈ ids, '\n' ∉ d.data) :
    (charLines (docidsFileContent ids).data).map (fun cs => String.mk cs) = ids := by
  induction ids with
  | nil => rfl
  | cons d rest ih =>
    have hd : '\n' ∉ d.data := h d (List.mem_cons_self d rest)
    have hrest : ∀ x ∈ rest, '\n' ∉ x.data := fun x hx => h x (List.mem_cons_of_mem d hx)
    rw [docidsFileContent, String.data_append, String.data_append]
    have hnl : ("\n" : String).data = ['\n'] := rfl
    rw [hnl, List.append_assoc, List.singleton_append, charLines_cons _ _ hd]
    rw [List.map_cons]
    exact congrArg₂ List.cons rfl (ih hrest)

theorem pyLines_docidsFileContent (ids : List String)
    (h : ∀ d ∈ ids, '\n' ∉ d.data ∧ '\r' ∉ d.data) :
    pyLines (docidsFileContent ids) = ids := by
  have hcr : '\r' ∉ (docidsFileContent ids).data :=
    cr_not_mem_content ids (fun d hd => (h d hd).2)
  rw [pyLines, univNl_no_cr _ hcr]
  exact mapMk_charLines_content ids (fun d hd => (h d hd).1)

/-- After a `save` of a built state, `load` recovers the docids up to the
per-line strip; with ids free of both line-terminator characters the line
structure is recovered exactly (universal-newline reading also breaks lines
at "\r" and "\r\n"). -/
theorem load_after_save (s : IndexerState) (fs : FS) (vecs : List Vec)
    (hidx : s.index = some vecs)
    (h : ∀ d ∈ s.docids, '\n' ∉ d.data ∧ '\r' ∉ d.data) :
    load (save s fs).1 =
      Except.ok { index := some vecs, docids := s.docids.map pyStrip } := by
  rw [save, hidx]
  rw [load]
  simp only []
  rw [pyLines_docidsFileContent s.docids h]

/-- On a non-empty consumed stream, the successful build state: one encoded
merged text per consumed item, doc-ids in input order. -/
theorem build_success_state (enc : String → Vec) (s : IndexerState) (fs : FS)
    (docs : List (String × String × String)) (limit : Option Int) (c : Nat)
    (h : docs ≠ []) :
    (build_from_corpus enc s fs docs limit c).1 =
      { index := some ((consumed limit 0 docs).map (fun d => enc (merge_text d.2.1 d.2.2))),
        docids := (consumed limit 0 docs).map Prod.fst } := by
  have hcne : consumed limit 0 docs ≠ [] := by
    cases docs with
    | nil => exact absurd rfl h
    | cons d rest => exact consumed_cons_ne_nil limit 0 d rest
  rw [build_eq_buildSpec]
  unfold buildSpec
  rw [if_neg hcne]

/-- A concrete inconsistent artifact pair: one vector in the index file, two
lines in the doc-id file. -/
def fsMismatched : FS :=
  { dirExists := true, indexFile := some [[1]], docidsFile := some "a\nb\n", metaFile := none }

/-- C1 counterexample: `load` performs no cross-check, so an inconsistent
file pair — an index file holding one vector next to a `docids.txt` holding
two lines — loads successfully into a state whose doc-id list length (2)
differs from its vector count (1), refuting the invariant for arbitrary
successful loads. -/
theorem c1_counterexample :
    load fsMismatched = Except.ok { index := some [[1]], docids := ["a", "b"] } ∧
    (["a", "b"] : List String).length ≠ ([[(1 : ℚ)]] : List Vec).length := by
  exact ⟨rfl, by decide⟩

/-- C1 (amended): after every successful `build_from_corpus` the doc-id list
length equals the vector count of the index.  `load` reconstructs both from
the two files without any cross-check, so after a load the invariant is
only guaranteed when the files are consistent — in particular it holds for
files produced by `save` of a consistent state whose doc-ids contain no
line-terminator character, neither "\n" nor "\r" (`save` writes one id per
line and `load` reads with universal newlines, which break lines at "\n",
"\r" and "\r\n"); an inconsistent pair loads successfully with mismatched
lengths. -/
theorem c1_length_invariant (enc : String → Vec) (s s2 : IndexerState) (fs fs2 : FS)
    (docs : List (String × String × String)) (limit : Option Int) (c : Nat)
    (vecs : List Vec) :
    ((build_from_corpus enc s fs docs limit c).2.2 = none →
      (build_from_corpus enc s fs docs limit c).1.docids.length =
        ((build_from_corpus enc s fs docs limit c).1.index.getD []).length) ∧
    (s2.index = some vecs → s2.docids.length = vecs.length →
      (∀ d ∈ s2.docids, '\n' ∉ d.data ∧ '\r' ∉ d.data) →
      ∃ s3, load (save s2 fs2).1 = Except.ok s3 ∧
        s3.docids.length = (s3.index.getD []).length) := by
  constructor
  · intro hok
    rw [build_eq_buildSpec] at hok ⊢
    unfold buildSpec at hok ⊢
    by_cases he : consumed limit 0 docs = []
    · rw [if_pos he] at hok
      simp at hok
    · rw [if_neg he]
      simp
  · intro hidx hlen hnl
    refine ⟨_, load_after_save s2 fs2 vecs hidx hnl, ?_⟩
    simp [hlen]

/-- C1 witness: a one-document build satisfies the invariant, and so does a
save/load round-trip of a consistent one-vector state. -/
theorem c1_length_invariant_witness :
    ((build_from_corpus encConst initState fs0 [("d", "t", "x")] none 8192).1.docids.length =
      ((build_from_corpus encConst initState fs0 [("d", "t", "x")] none 8192).1.index.getD
        []).length) ∧
    ∃ s3, load (save { index := some [[1]], docids := ["d"] } fs0).1 = Except.ok s3 ∧
      s3.docids.length = (s3.index.getD []).length := by
  constructor
  · exact (c1_length_invariant encConst initState initState fs0 fs0
      [("d", "t", "x")] none 8192 [[1]]).1 rfl
  · exact (c1_length_invariant encConst initState { index := some [[1]], docids := ["d"] }
      fs0 fs0 [("d", "t", "x")] none 8192 [[1]]).2 rfl (by decide) (by decide)

/-- C2 (amended): for every non-empty corpus whose doc-ids contain neither
"\n" nor "\r" and are unchanged by Python strip, `build → save → load` then
`search` returns exactly the same (doc-id, score) pairs, in the same order,
as searching the in-memory state immediately after `build`.  (`save` writes
one doc-id per line, `load` reads with universal newlines and strips each
line, so ids carrying a line terminator or surrounding whitespace are
altered by the round-trip.) -/
theorem c2_roundtrip (enc : String → Vec) (docs : List (String × String × String))
    (limit : Option Int) (c : Nat) (fs fs2 : FS) (q : String) (k : Nat)
    (hne : docs ≠ [])
    (hids : ∀ d ∈ docs, ('\n' ∉ (Prod.fst d).data ∧ '\r' ∉ (Prod.fst d).data) ∧
      pyStrip (Prod.fst d) = Prod.fst d) :
    ∃ s2, load (save (build_from_corpus enc initState fs docs limit c).1 fs2).1 =
        Except.ok s2 ∧
      search enc s2.docids (s2.index.getD []) q k =
        search enc (build_from_corpus enc initState fs docs limit c).1.docids
          ((build_from_corpus enc initState fs docs limit c).1.index.getD []) q k := by
  have hs1 := build_success_state enc initState fs docs limit c hne
  have hnl : ∀ x ∈ (build_from_corpus enc initState fs docs limit c).1.docids,
      '\n' ∉ x.data ∧ '\r' ∉ x.data := by
    rw [hs1]
    intro x hx
    obtain ⟨d, hd, hdx⟩ := List.mem_map.mp hx
    rw [← hdx]
    exact (hids d (mem_consumed limit 0 docs d hd)).1
  have hstrip : (build_from_corpus enc initState fs docs limit c).1.docids.map pyStrip =
      (build_from_corpus enc initState fs docs limit c).1.docids := by
    have hx : ∀ x ∈ (build_from_corpus enc initState fs docs limit c).1.docids,
        pyStrip x = x := by
      rw [hs1]
      intro x hx
      obtain ⟨d, hd, hdx⟩ := List.mem_map.mp hx
      rw [← hdx]
      exact (hids d (mem_consumed limit 0 docs d hd)).2
    rw [List.map_congr_left hx, List.map_id']
  have hload := load_after_save (build_from_corpus enc initState fs docs limit c).1 fs2
    ((consumed limit 0 docs).map (fun d => enc (merge_text d.2.1 d.2.2)))
    (by rw [hs1]) hnl
  refine ⟨_, hload, ?_⟩
  rw [hstrip]
  rw [hs1]

/-- C2 counterexample: a doc-id with a leading space.  `save` writes it as a
line and `load` strips the line, so after the round-trip the id " a" comes
back as "a", and searching the reloaded index returns a different doc-id
than searching the in-memory index right after build. -/
theorem c2_counterexample :
    (build_from_corpus encConst initState fs0 [(" a", "t", "x")] none 8192).1.docids = [" a"] ∧
    load (save (build_from_corpus encConst initState fs0 [(" a", "t", "x")] none 8192).1 fs0).1 =
      Except.ok { index := some [[1]], docids := ["a"] } ∧
    search encConst ["a"] [[1]] "q" 1 ≠ search encConst [" a"] [[1]] "q" 1 := by
  refine ⟨rfl, rfl, ?_⟩
  decide

/-- C2 witness: a two-document corpus with clean ids round-trips to
identical search results. -/
theorem c2_roundtrip_witness :
    ∃ s2, load (save (build_from_corpus encConst initState fs0
        [("a", "t", "x"), ("b", "t", "y")] none 8192).1 fs0).1 = Except.ok s2 ∧
      search encConst s2.docids (s2.index.getD []) "q" 3 =
        search encConst
          (build_from_corpus encConst initState fs0
            [("a", "t", "x"), ("b", "t", "y")] none 8192).1.docids
          ((build_from_corpus encConst initState fs0
            [("a", "t", "x"), ("b", "t", "y")] none 8192).1.index.getD []) "q" 3 :=
  c2_roundtrip encConst [("a", "t", "x"), ("b", "t", "y")] none 8192 fs0 fs0 "q" 3
    (by decide) (by decide)

/-- C9: the merged text equals the trimmed title and trimmed body joined by
the newline separator when both are non-empty, and otherwise equals
whichever of the two is non-empty (the empty string when both are). -/
theorem c9_merge_text (title text : String) :
    (pyStrip title ≠ "" → pyStrip text ≠ "" →
      merge_text title text = pyStrip title ++ "\n" ++ pyStrip text) ∧
    (pyStrip title = "" → merge_text title text = pyStrip text) ∧
    (pyStrip text = "" → merge_text title text = pyStrip title) := by
  refine ⟨fun h1 h2 => ?_, fun h1 => ?_, fun h2 => ?_⟩
  · rw [merge_text]
    simp only [if_pos (And.intro h1 h2)]
  · rw [merge_text]
    simp [h1]
  · rw [merge_text]
    by_cases h1 : pyStrip title = ""
    · simp [h1, h2]
    · simp [h1, h2]

/-- C9 witness: a title with surrounding whitespace and a non-empty body are
joined with the separator after trimming. -/
theorem c9_merge_text_witness :
    pyStrip " a " ≠ "" ∧ pyStrip "b" ≠ "" ∧
    merge_text " a " "b" = pyStrip " a " ++ "\n" ++ pyStrip "b" :=
  ⟨by decide, by decide, (c9_merge_text " a " "b").1 (by decide) (by decide)⟩

/-! ## Search lemmas -/

theorem scoredRows_length (q : Vec) :
    ∀ (vs : List Vec) (i : Int), (scoredRows q vs i).length = vs.length := by
  intro vs
  induction vs with
  | nil => intro i; rfl
  | cons v rest ih => intro i; simp [scoredRows, ih]

theorem scoredRows_mem_bounds (q : Vec) :
    ∀ (vs : List Vec) (i : Int) (p : Int × ℚ),
      p ∈ scoredRows q vs i → i ≤ p.1 ∧ p.1 < i + (vs.length : Int) := by
  intro vs
  induction vs with
  | nil => intro i p hp; simp [scoredRows] at hp
  | cons v rest ih =>
    intro i p hp
    rw [scoredRows] at hp
    rcases List.mem_cons.mp hp with h | h
    · rw [h]
      constructor
      · exact le_refl i
      · simp only [List.length_cons]
        push_cast
        omega
    · obtain ⟨h1, h2⟩ := ih (i + 1) p h
      constructor
      · omega
      · simp only [List.length_cons]
        push_cast at h2 ⊢
        omega

theorem mapRows_append (ds : List String) (l1 l2 : List (Int × ℚ)) :
    mapRows ds (l1 ++ l2) = mapRows ds l1 ++ mapRows ds l2 := by
  induction l1 with
  | nil => rfl
  | cons p rest ih =>
    rw [List.cons_append, mapRows, mapRows]
    by_cases h : 0 ≤ p.1 ∧ p.1 < (ds.length : Int)
    · rw [dif_pos h, dif_pos h, ih, List.cons_append]
    · rw [dif_neg h, dif_neg h, ih]

theorem mapRows_replicate_sentinel (ds : List String) (m : Nat) (x : ℚ) :
    mapRows ds (List.replicate m ((-1 : Int), x)) = [] := by
  induction m with
  | zero => rfl
  | succ n ih =>
    rw [List.replicate_succ, mapRows]
    have h : ¬ (0 ≤ ((-1 : Int), x).1 ∧ ((-1 : Int), x).1 < (ds.length : Int)) := by
      simp
    rw [dif_neg h, ih]

theorem length_mapRows_le (ds : List String) :
    ∀ l : List (Int × ℚ), (mapRows ds l).length ≤ l.length := by
  intro l
  induction l with
  | nil => simp [mapRows]
  | cons p rest ih =>
    rw [mapRows]
    by_cases h : 0 ≤ p.1 ∧ p.1 < (ds.length : Int)
    · rw [dif_pos h]
      simpa using ih
    · rw [dif_neg h]
      exact le_trans ih (by simp)

theorem length_mapRows_inrange (ds : List String) :
    ∀ l : List (Int × ℚ), (∀ p ∈ l, 0 ≤ p.1 ∧ p.1 < (ds.length : Int)) →
      (mapRows ds l).length = l.length := by
  intro l
  induction l with
  | nil => intro _; rfl
  | cons p rest ih =>
    intro h
    rw [mapRows, dif_pos (h p (List.mem_cons_self p rest))]
    simp only [List.length_cons]
    rw [ih (fun x hx => h x (List.mem_cons_of_mem p hx))]

theorem mapRows_snd_sub (ds : List String) :
    ∀ (l : List (Int × ℚ)) (y : String × ℚ),
      y ∈ mapRows ds l → ∃ x ∈ l, Prod.snd x = Prod.snd y := by
  intro l
  induction l with
  | nil => intro y hy; simp [mapRows] at hy
  | cons p rest ih =>
    intro y hy
    rw [mapRows] at hy
    by_cases h : 0 ≤ p.1 ∧ p.1 < (ds.length : Int)
    · rw [dif_pos h] at hy
      rcases List.mem_cons.mp hy with he | ht
      · exact ⟨p, List.mem_cons_self p rest, by rw [he]⟩
      · obtain ⟨x, hx, hxy⟩ := ih y ht
        exact ⟨x, List.mem_cons_of_mem p hx, hxy⟩
    · rw [dif_neg h] at hy
      obtain ⟨x, hx, hxy⟩ := ih y hy
      exact ⟨x, List.mem_cons_of_mem p hx, hxy⟩

theorem pairwise_mapRows (ds : List String) :
    ∀ l : List (Int × ℚ), l.Pairwise rowGE →
      ((mapRows ds l).map Prod.snd).Pairwise (fun a b => b ≤ a) := by
  intro l
  induction l with
  | nil => intro _; simp [mapRows]
  | cons p rest ih =>
    intro hp
    rw [List.pairwise_cons] at hp
    obtain ⟨h1, h2⟩ := hp
    rw [mapRows]
    by_cases h : 0 ≤ p.1 ∧ p.1 < (ds.length : Int)
    · rw [dif_pos h, List.map_cons, List.pairwise_cons]
      constructor
      · intro b hb
        obtain ⟨y, hy, hyb⟩ := List.mem_map.mp hb
        obtain ⟨x, hx, hxy⟩ := mapRows_snd_sub ds rest y hy
        rw [← hyb, ← hxy]
        exact h1 x hx
      · exact ih h2
    · rw [dif_neg h]
      exact ih h2

theorem mapRows_length_filter (ds : List String) :
    ∀ l : List (Int × ℚ), (mapRows ds l).length =
      (l.filter (fun p => decide (0 ≤ p.1 ∧ p.1 < (ds.length : Int)))).length := by
  intro l
  induction l with
  | nil => rfl
  | cons p rest ih =>
    rw [mapRows, List.filter_cons]
    by_cases h : 0 ≤ p.1 ∧ p.1 < (ds.length : Int)
    · rw [dif_pos h, if_pos (by simpa using h)]
      simp only [List.length_cons]
      rw [ih]
    · rw [dif_neg h, if_neg (by simpa using h)]
      exact ih

theorem mem_mapRows (ds : List String) :
    ∀ (l : List (Int × ℚ)) (d : String) (sc : ℚ), (d, sc) ∈ mapRows ds l →
      ∃ (i : Nat) (h : i < ds.length), ((i : Int), sc) ∈ l ∧ ds.get ⟨i, h⟩ = d := by
  intro l
  induction l with
  | nil => intro d sc h; simp [mapRows] at h
  | cons p rest ih =>
    intro d sc hm
    rw [mapRows] at hm
    by_cases h : 0 ≤ p.1 ∧ p.1 < (ds.length : Int)
    · rw [dif_pos h] at hm
      rcases List.mem_cons.mp hm with he | ht
      · have hd : d = ds.get ⟨p.1.toNat, by omega⟩ := congrArg Prod.fst he
        have hsc : sc = p.2 := congrArg Prod.snd he
        refine ⟨p.1.toNat, by omega, ?_, hd.symm⟩
        have hcast : ((p.1.toNat : Int)) = p.1 := Int.toNat_of_nonneg h.1
        rw [hsc, hcast]
        exact List.mem_cons_self p rest
      · obtain ⟨i, hi, hmem, hget⟩ := ih d sc ht
        exact ⟨i, hi, List.mem_cons_of_mem p hmem, hget⟩
    · rw [dif_neg h] at hm
      obtain ⟨i, hi, hmem, hget⟩ := ih d sc hm
      exact ⟨i, hi, List.mem_cons_of_mem p hmem, hget⟩

/-- C5: `search` returns at most k pairs, exactly `min k (vector count)`
when every real row position is in range of the doc-id list (in particular
whenever the index holds no more vectors than the doc-id list has entries),
and the returned scores are in non-increasing order. -/
theorem c5_topk_bound (enc : String → Vec) (ds : List String) (vecs : List Vec)
    (q : String) (k : Nat) :
    (search enc ds vecs q k).length ≤ k ∧
    (vecs.length ≤ ds.length → (search enc ds vecs q k).length = min k vecs.length) ∧
    ((search enc ds vecs q k).map Prod.snd).Pairwise (fun a b => b ≤ a) := by
  have hdef : search enc ds vecs q k =
      mapRows ds ((List.insertionSort rowGE (scoredRows (enc q) vecs 0)).take k) := by
    rw [search, faissSearch, mapRows_append, mapRows_replicate_sentinel, List.append_nil]
  have hslen : (List.insertionSort rowGE (scoredRows (enc q) vecs 0)).length = vecs.length := by
    rw [List.length_insertionSort, scoredRows_length]
  refine ⟨?_, ?_, ?_⟩
  · rw [hdef]
    refine le_trans (length_mapRows_le ds _) ?_
    rw [List.length_take]
    exact min_le_left _ _
  · intro h
    rw [hdef, length_mapRows_inrange, List.length_take, hslen]
    intro p hp
    have hp2 : p ∈ List.insertionSort rowGE (scoredRows (enc q) vecs 0) :=
      List.take_subset k _ hp
    have hp3 : p ∈ scoredRows (enc q) vecs 0 := (List.mem_insertionSort rowGE).mp hp2
    obtain ⟨hb1, hb2⟩ := scoredRows_mem_bounds (enc q) vecs 0 p hp3
    constructor
    · exact hb1
    · have hc : (vecs.length : Int) ≤ (ds.length : Int) := by exact_mod_cast h
      omega
  · rw [hdef]
    exact pairwise_mapRows ds _
      (List.Pairwise.sublist (List.take_sublist k _) (List.sorted_insertionSort rowGE _))

/-- C5 witness: a one-vector index searched with k = 2 returns exactly
`min 2 1 = 1` pair with sorted scores. -/
theorem c5_topk_bound_witness :
    (search encConst ["a"] [[1]] "q" 2).length ≤ 2 ∧
    (search encConst ["a"] [[1]] "q" 2).length = min 2 1 ∧
    ((search encConst ["a"] [[1]] "q" 2).map Prod.snd).Pairwise (fun a b => b ≤ a) :=
  ⟨(c5_topk_bound encConst ["a"] [[1]] "q" 2).1,
   (c5_topk_bound encConst ["a"] [[1]] "q" 2).2.1 (by decide),
   (c5_topk_bound encConst ["a"] [[1]] "q" 2).2.2⟩

/-- C6: every row position returned by the underlying index search that is
negative or not less than the doc-id list length is silently omitted — the
result's length is exactly the number of in-range raw rows — and every
returned pair arises from an in-bounds doc-id lookup at an in-range row of
the raw result. -/
theorem c6_out_of_range_dropped (enc : String → Vec) (ds : List String) (vecs : List Vec)
    (q : String) (k : Nat) :
    (search enc ds vecs q k).length =
      ((faissSearch vecs (enc q) k).filter
        (fun p => decide (0 ≤ p.1 ∧ p.1 < (ds.length : Int)))).length ∧
    ∀ d sc, (d, sc) ∈ search enc ds vecs q k →
      ∃ (i : Nat) (h : i < ds.length),
        ((i : Int), sc) ∈ faissSearch vecs (enc q) k ∧ ds.get ⟨i, h⟩ = d := by
  constructor
  · rw [search]
    exact mapRows_length_filter ds _
  · intro d sc hm
    rw [search] at hm
    exact mem_mapRows ds _ d sc hm

/-- Concrete evaluation of a one-vector search, used to discharge witness
hypotheses (kernel reduction cannot evaluate rational arithmetic, so this is
established by simplification). -/
theorem search_encConst_eval : search encConst ["a"] [[1]] "q" 2 = [("a", 1)] := by
  have hip : ip (encConst "q") ([1] : Vec) = 1 := by
    norm_num [ip, encConst]
  rw [search, faissSearch]
  rw [show scoredRows (encConst "q") [[1]] 0 = [(0, ip (encConst "q") [1])] from rfl, hip]
  norm_num [mapRows, faissSentinel]

/-- C6 witness: with a one-entry doc-id list and k = 2, the sentinel padding
row is dropped and the returned pair comes from an in-bounds lookup. -/
theorem c6_out_of_range_dropped_witness :
    ∃ (i : Nat) (h : i < (["a"] : List String).length),
      ((i : Int), (1 : ℚ)) ∈ faissSearch [[1]] (encConst "q") 2 ∧
      (["a"] : List String).get ⟨i, h⟩ = "a" :=
  (c6_out_of_range_dropped encConst ["a"] [[1]] "q" 2).2 "a" 1
    (by rw [search_encConst_eval]; exact List.mem_singleton.mpr rfl)

/-- C10: the facade constructor decides between load and build solely on the
presence of the index file; when `index.faiss` exists but `docids.txt` is
absent, construction returns the file error raised by `load` (the index
file reads fine, opening `docids.txt` fails) instead of falling back to a
rebuild — no file is written and no build output appears. -/
theorem c10_facade_load_error (enc : String → Vec)
    (corpus : List (String × String × String)) (limit : Option Int) (fs : FS)
    (h1 : fs.indexFile.isSome = true) (h2 : fs.docidsFile = none) :
    uniSearchInit enc corpus limit fs =
      (ensure_dir fs, Except.error PyError.missingDocidsFile) := by
  obtain ⟨v, hv⟩ := Option.isSome_iff_exists.mp h1
  rw [uniSearchInit]
  have hidx : (ensure_dir fs).indexFile = some v := hv
  have hdoc : (ensure_dir fs).docidsFile = none := h2
  rw [if_pos (by rw [hidx]; rfl)]
  rw [load, hidx, hdoc]

/-- A concrete directory holding only a serialized index, no `docids.txt`. -/
def fsIdxOnly : FS :=
  { dirExists := true, indexFile := some [[1]], docidsFile := none, metaFile := none }

/-- C10 witness: on a directory with only `index.faiss`, the facade
constructor fails with the missing-docids file error and rebuilds nothing. -/
theorem c10_facade_load_error_witness :
    uniSearchInit encConst [("d", "t", "x")] none fsIdxOnly =
      (ensure_dir fsIdxOnly, Except.error PyError.missingDocidsFile) :=
  c10_facade_load_error encConst [("d", "t", "x")] none fsIdxOnly rfl rfl
